import Mathlib

/-!
# Verification of the bitcoin-trader-ml data-processing pipeline

Shallow embedding of `src/bitcoin-trader-ml/src/data/process_data.py`
(function `process_btc_data`).  Prices are embedded as exact rationals
(`ℚ`); a pandas `DataFrame` column is a `List (Option ℚ)` where `none`
stands for `NaN`; the frame itself is a row index together with a list of
named columns.  The CSV load and the `pandas_ta` indicator calls are
external library calls: the model starts from the frame as it stands
after the indicator step (the `Close` column plus the indicator columns),
and embeds exactly the repository's code for the lagged-feature step, the
labeling loop and the `dropna` step.
-/

/-- `FORWARD_WINDOW = 24` (process_data.py line 11). -/
def FORWARD_WINDOW : ℕ := 24

/-- `PROFIT_TARGET = 0.02` (process_data.py line 12). -/
def PROFIT_TARGET : ℚ := 2 / 100

/-- `STOP_LOSS = 0.01` (process_data.py line 13). -/
def STOP_LOSS : ℚ := 1 / 100

/-- The inner scan loop of the labeling step (process_data.py lines
64-70), over the list of future closes `close[i+1 .. i+W]`: returns `1`
when the profit barrier is hit first (`future_price >= profit_price`,
`df.at[...] = 1` then `break`), `0` when the loss barrier is hit first
(`break` with the target left at its initial `0`) and `0` when the window
is exhausted with neither barrier hit. -/
def scanLabel (profit_price loss_price : ℚ) : List ℚ → ℕ
  | [] => 0
  | f :: rest =>
      if profit_price ≤ f then 1
      else if f ≤ loss_price then 0
      else scanLabel profit_price loss_price rest

/-- The label the loop body of process_data.py lines 59-70 computes for
bar `i` of a close-price series: entry price `close[i]`, barriers
`entry * (1 + PROFIT_TARGET)` and `entry * (1 - STOP_LOSS)`, scanned over
the window `close[i+1 .. i+FORWARD_WINDOW]`. -/
def labelBar (closes : List ℚ) (i : ℕ) : ℕ :=
  let entry_price := closes.getD i 0
  let profit_price := entry_price * (1 + PROFIT_TARGET)
  let loss_price := entry_price * (1 - STOP_LOSS)
  scanLabel profit_price loss_price ((closes.drop (i + 1)).take FORWARD_WINDOW)

/-- The error taxonomy of the spec's labeling step (spec section 7): a
non-positive entry price is a domain violation. -/
inductive LabelError where
  | invalidPrice
deriving DecidableEq

/-- The spec's version of the per-bar labeling, stated in the spec's own
words for comparison with `labelBar` (spec section 4.3, Failure clause):
"entry price ≤ 0 is a domain violation; fails with `InvalidPrice` rather
than producing a nonsensical target/stop pair"; otherwise the barriers
and the forward scan are as in the code. -/
def labelBarChecked (closes : List ℚ) (i : ℕ) : Except LabelError ℕ :=
  let entry_price := closes.getD i 0
  if entry_price ≤ 0 then Except.error LabelError.invalidPrice
  else
    Except.ok (scanLabel (entry_price * (1 + PROFIT_TARGET))
      (entry_price * (1 - STOP_LOSS)) ((closes.drop (i + 1)).take FORWARD_WINDOW))

/-- A pandas DataFrame as process_data.py uses one: a row index (the
`Date` index, embedded as natural numbers) and an ordered list of named
columns; a cell holds `none` for `NaN`. -/
structure Frame where
  index : List ℕ
  cols : List (String × List (Option ℚ))
deriving DecidableEq

/-- `len(df)`: the number of rows of the frame. -/
def Frame.numRows (f : Frame) : ℕ := f.index.length

/-- Column lookup by label: the first column whose label matches (pandas
column labels are unique in this pipeline). -/
def lookupCol : List (String × List (Option ℚ)) → String → List (Option ℚ)
  | [], _ => []
  | c :: rest, name => if c.1 = name then c.2 else lookupCol rest name

/-- `df[name]`: the column called `name`. -/
def Frame.getCol (f : Frame) (name : String) : List (Option ℚ) :=
  lookupCol f.cols name

/-- `df[name].iloc[t]`: one cell of a column. -/
def Frame.getCell (f : Frame) (name : String) (t : ℕ) : Option ℚ :=
  (f.getCol name).getD t none

/-- `df[name] = vals`: column assignment; pandas replaces the column when
the label exists and appends a new column otherwise. -/
def Frame.setCol (f : Frame) (name : String) (vals : List (Option ℚ)) : Frame :=
  if f.cols.any (fun c => c.1 = name) then
    ⟨f.index, f.cols.map (fun c => if c.1 = name then (c.1, vals) else c)⟩
  else
    ⟨f.index, f.cols ++ [(name, vals)]⟩

/-- `df.at[df.index[i], name] = v`: writes one cell of the named column,
leaving every other column untouched. -/
def Frame.setCell (f : Frame) (name : String) (i : ℕ) (v : ℚ) : Frame :=
  ⟨f.index, f.cols.map (fun c => if c.1 = name then (c.1, c.2.set i (some v)) else c)⟩

/-- `series.shift(lag)`: value at `t` is the source value at `t - lag`,
`NaN` (`none`) for the first `lag` rows; the output has the length of the
source. -/
def shiftCol (lag : ℕ) (xs : List (Option ℚ)) : List (Option ℚ) :=
  (List.range xs.length).map (fun t => if lag ≤ t then xs.getD (t - lag) none else none)

/-- `indicators_to_lag` (process_data.py line 50). -/
def indicators_to_lag : List String := ["RSI_14", "MACDh_12_26_9", "BBP_20_2.0", "OBV"]

/-- `lag_periods` (process_data.py line 51). -/
def lag_periods : List ℕ := [1, 3, 6, 12]

/-- The lagged-feature step (process_data.py lines 53-54): for each
indicator to lag and each lag period, append the column
`f'{indicator}_lag_{lag}' = df[indicator].shift(lag)`. -/
def addLags (df : Frame) : Frame :=
  indicators_to_lag.foldl (fun acc ind =>
    lag_periods.foldl (fun acc2 lag =>
      acc2.setCol (ind ++ "_lag_" ++ toString lag) (shiftCol lag (acc2.getCol ind))) acc) df

/-- The labeling step (process_data.py lines 57-70): `df['target'] = 0`,
then for `i in range(len(df) - FORWARD_WINDOW)` the forward scan over
offsets `1 .. FORWARD_WINDOW`, writing `target[i] = 1` exactly when the
profit barrier is hit before the loss barrier (`scanLabel` folds the two
`break`s of the inner loop). -/
def labelStep (df : Frame) : Frame :=
  let df0 := df.setCol "target" (List.replicate df.numRows (some 0))
  (List.range (df.numRows - FORWARD_WINDOW)).foldl (fun acc i =>
    let entry_price := ((acc.getCol "Close").getD i none).getD 0
    let profit_price := entry_price * (1 + PROFIT_TARGET)
    let loss_price := entry_price * (1 - STOP_LOSS)
    let window := (((acc.getCol "Close").drop (i + 1)).take FORWARD_WINDOW).map
      (fun o => o.getD 0)
    if scanLabel profit_price loss_price window = 1 then acc.setCell "target" i 1
    else acc) df0

/-- `df.dropna()` row predicate: the row survives iff no column holds
`NaN` at it. -/
def keepRow (f : Frame) (t : ℕ) : Bool :=
  f.cols.all (fun c => (c.2.getD t none).isSome)

/-- `df.dropna(inplace=True)` (process_data.py line 73): keeps exactly
the rows at which every column is defined. -/
def dropna (f : Frame) : Frame :=
  let keep := (List.range f.numRows).filter (fun t => keepRow f t)
  ⟨keep.map (fun t => f.index.getD t 0),
   f.cols.map (fun c => (c.1, keep.map (fun t => c.2.getD t none)))⟩

/-- The part of `process_btc_data` downstream of the `pandas_ta`
indicator calls (process_data.py lines 49-74): lagged features, the
labeling loop, then `dropna`. -/
def processFrame (df : Frame) : Frame :=
  dropna (labelStep (addLags df))

/-- A fully defined column (no `NaN`). -/
def someCol (vals : List ℚ) : List (Option ℚ) := vals.map some

/-- A backward-looking indicator column with warm-up `w`: `NaN` on the
first `w` rows, defined after. -/
def warmCol (w : ℕ) (vals : List ℚ) : List (Option ℚ) :=
  List.replicate w none ++ (vals.drop w).map some

/-- A 26-bar close series (alternating so that each eligible bar hits the
profit barrier at the first offset). -/
def closes26 : List ℚ :=
  [100, 200, 100, 200, 100, 200, 100, 200, 100, 200, 100, 200, 100,
   200, 100, 200, 100, 200, 100, 200, 100, 200, 100, 200, 100, 200]

/-- A concrete 26-row post-indicator frame: `Close` plus the four
indicators the code lags, with short warm-ups; bar 25 is ineligible
(`25 + FORWARD_WINDOW ≥ 26`). -/
def gC1 : Frame :=
  ⟨List.range 26,
   [("Close", someCol closes26),
    ("RSI_14", warmCol 2 closes26),
    ("MACDh_12_26_9", warmCol 1 closes26),
    ("BBP_20_2.0", warmCol 1 closes26),
    ("OBV", someCol closes26)]⟩

/-- A 39-bar close series of the same alternating shape. -/
def closes39 : List ℚ := closes26 ++
  [100, 200, 100, 200, 100, 200, 100, 200, 100, 200, 100, 200, 100]

/-- A concrete 39-row post-indicator frame whose largest warm-up is the
14 leading `NaN` rows of `SMA_100` (the four lagged indicators have no
warm-up, so every lag column has warm-up at most 12 < 14, and there are
no interior undefined rows). -/
def gC3 : Frame :=
  ⟨List.range 39,
   [("Close", someCol closes39),
    ("SMA_100", warmCol 14 closes39),
    ("RSI_14", someCol closes39),
    ("MACDh_12_26_9", someCol closes39),
    ("BBP_20_2.0", someCol closes39),
    ("OBV", someCol closes39)]⟩

/-- For C2: a series whose bar 0 has entry price 100 and whose 24 future
closes all sit strictly between the barriers 99 and 102. -/
def cexC2a : List ℚ := 100 :: List.replicate 24 101

/-- For C2: the same 24 future closes, but entry price 50, whose profit
barrier 51 the very first future close 101 breaches. -/
def cexC2b : List ℚ := 50 :: List.replicate 24 101

/-- For C2's amended claim: a 26-bar tail shared by two series. -/
def tailC2 : List ℚ := 100 :: List.replicate 24 101

/-- For C4: a series whose bar 0 has the non-positive entry price -100;
its barriers are -102 (profit) and -99 (loss), and the first future
close -99 satisfies both barrier conditions at once. -/
def cexC4 : List ℚ := (-100) :: List.replicate 24 (-99)

/-- For C5's witness: entry -100 gives profit barrier -102 and loss
barrier -99, and the future close -100 at offset 1 satisfies both
conditions simultaneously. -/
def cexC5 : List ℚ := (-100) :: (-100) :: List.replicate 23 (-99)

/-- For C9's witness: entry 100, first future close 103 breaches the
profit barrier at once. -/
def cexC9 : List ℚ := 100 :: 103 :: List.replicate 23 (0 : ℚ)

/-- The strictly rising series of the spec's testable property: close
`k` equals `c0 * 1.01 ^ k`. -/
def geomCloses (c0 : ℚ) (n : ℕ) : List ℚ :=
  (List.range n).map (fun k => c0 * (101 / 100) ^ k)

/-- For C10's witness: a tiny two-row frame with one close column. -/
def wC10 : Frame := ⟨[0, 1], [("Close", [some 5, some 6])]⟩

unseal Rat.mul Rat.add Rat.sub Rat.inv Rat.ofScientific in
/-- C1: for every bar `i` with `i + FORWARD_WINDOW` at or past the end
of the series, the spec requires the bar to produce no label and to be
absent from the final dataset.  The code violates this: in the concrete
26-row frame `gC1`, bar 25 is ineligible (`26 ≤ 25 + FORWARD_WINDOW`),
yet the labeling step leaves it with the default label 0 and `dropna`
keeps it, so it appears in the final output. -/
theorem ineligible_bar_kept_with_default_zero :
    26 ≤ 25 + FORWARD_WINDOW ∧
    (labelStep (addLags gC1)).getCell "target" 25 = some 0 ∧
    (25 : ℕ) ∈ (processFrame gC1).index := by decide

unseal Rat.mul Rat.add Rat.sub Rat.inv Rat.ofScientific in
/-- C3: the spec's row-count formula is input length minus max warm-up
minus `FORWARD_WINDOW` (minus interior undefined rows).  The code
violates it: on the concrete 39-row frame `gC3` (max warm-up 14, no
interior undefined rows) the final dataset has `39 - 14 = 25` rows,
not `39 - 14 - 24 = 1`. -/
theorem final_row_count_ignores_forward_window :
    gC3.numRows = 39 ∧ (processFrame gC3).numRows = 25 ∧
    (25 : ℕ) ≠ 39 - 14 - FORWARD_WINDOW := by decide

unseal Rat.mul Rat.add Rat.sub Rat.inv Rat.ofScientific in
/-- C2 counterexample: two series that agree on `close[1 .. 24]` (the
whole forward window of bar 0) but differ at `close[0]` get different
labels for bar 0, because the entry price is `close[0]` itself: with
entry 100 no barrier is hit (label 0), with entry 50 the first future
close 101 breaches the profit barrier 51 (label 1). -/
theorem label_depends_on_entry_close :
    cexC2a.drop 1 = cexC2b.drop 1 ∧
    0 + FORWARD_WINDOW < cexC2a.length ∧ 0 + FORWARD_WINDOW < cexC2b.length ∧
    labelBar cexC2a 0 = 0 ∧ labelBar cexC2b 0 = 1 := by decide

unseal Rat.mul Rat.add Rat.sub Rat.inv Rat.ofScientific in
/-- C4 counterexample: on the eligible bar 0 of `cexC4` the entry price
is -100 ≤ 0; the spec-side checked labeler fails with `InvalidPrice`,
but the code computes the nonsensical barrier pair (-102, -99) and
produces the label 1 (the first future close -99 is ≥ -102). -/
theorem nonpositive_entry_labeled_not_rejected :
    labelBarChecked cexC4 0 = Except.error LabelError.invalidPrice ∧
    labelBar cexC4 0 = 1 ∧ 0 + FORWARD_WINDOW < cexC4.length := by
  refine ⟨rfl, by decide, by decide⟩

/-- The forward window `close[i+1 .. i+FORWARD_WINDOW]` has exactly
`FORWARD_WINDOW` entries for an eligible bar. -/
lemma window_length (closes : List ℚ) (i : ℕ) (h : i + FORWARD_WINDOW < closes.length) :
    ((closes.drop (i + 1)).take FORWARD_WINDOW).length = FORWARD_WINDOW := by
  simp only [List.length_take, List.length_drop]
  omega

/-- Entry `k` of the forward window of bar `i` is `close[i+1+k]`. -/
lemma window_getD (closes : List ℚ) (i k : ℕ) (hk : k < FORWARD_WINDOW)
    (h : i + 1 + k < closes.length) :
    ((closes.drop (i + 1)).take FORWARD_WINDOW).getD k 0 = closes.getD (i + 1 + k) 0 := by
  rw [List.getD_eq_getElem?_getD, List.getD_eq_getElem?_getD,
    List.getElem?_take_of_lt hk, List.getElem?_drop]

/-- The scan returns nothing but 0 or 1. -/
lemma scanLabel_eq_zero_or_one (p l : ℚ) (fs : List ℚ) :
    scanLabel p l fs = 0 ∨ scanLabel p l fs = 1 := by
  induction fs with
  | nil => exact Or.inl rfl
  | cons f rest ih =>
    rw [scanLabel]
    by_cases h1 : p ≤ f
    · simp [h1]
    · by_cases h2 : f ≤ l
      · simp [h1, h2]
      · simpa [h1, h2] using ih

/-- Characterization of the scan: it returns 1 iff some window entry
reaches the profit barrier and every earlier entry lies strictly between
the barriers. -/
lemma scanLabel_eq_one_iff (p l : ℚ) (fs : List ℚ) :
    scanLabel p l fs = 1 ↔ ∃ j, j < fs.length ∧ p ≤ fs.getD j 0 ∧
      ∀ k, k < j → l < fs.getD k 0 ∧ fs.getD k 0 < p := by
  induction fs with
  | nil => simp [scanLabel]
  | cons f rest ih =>
    rw [scanLabel]
    by_cases h1 : p ≤ f
    · rw [if_pos h1]
      constructor
      · intro _
        exact ⟨0, by simp, by simpa using h1, fun k hk => absurd hk (Nat.not_lt_zero k)⟩
      · intro _; rfl
    · by_cases h2 : f ≤ l
      · simp only [if_neg h1, if_pos h2]
        constructor
        · intro h; exact absurd h (by omega)
        · rintro ⟨j, hj, hpj, hk⟩
          cases j with
          | zero => exact absurd (by simpa using hpj) h1
          | succ j' =>
            have h0 := (hk 0 (Nat.succ_pos j')).1
            simp only [List.getD_cons_zero] at h0
            exact absurd h2 (not_le.mpr h0)
      · simp only [if_neg h1, if_neg h2, ih]
        constructor
        · rintro ⟨j, hj, hpj, hk⟩
          refine ⟨j + 1, by simpa using Nat.succ_lt_succ hj, by simpa using hpj, ?_⟩
          intro k hk'
          cases k with
          | zero =>
            simp only [List.getD_cons_zero]
            exact ⟨not_le.mp h2, not_le.mp h1⟩
          | succ k' =>
            simpa using hk k' (by omega)
        · rintro ⟨j, hj, hpj, hk⟩
          cases j with
          | zero => exact absurd (by simpa using hpj) h1
          | succ j' =>
            refine ⟨j', by simpa using hj, by simpa using hpj, ?_⟩
            intro k hk'
            simpa using hk (k + 1) (by omega)

/-- First-barrier-wins, at the scan level: if every entry before index
`j` lies strictly between the barriers and entry `j` touches a barrier,
the scan's result is decided at `j` — 1 exactly when the profit
condition holds there (checked first, so a simultaneous breach of both
conditions yields 1), and entries after `j` are never consulted. -/
lemma scanLabel_first (p l : ℚ) (fs : List ℚ) (j : ℕ) (hj : j < fs.length)
    (hpre : ∀ k, k < j → l < fs.getD k 0 ∧ fs.getD k 0 < p)
    (hhit : p ≤ fs.getD j 0 ∨ fs.getD j 0 ≤ l) :
    scanLabel p l fs = if p ≤ fs.getD j 0 then 1 else 0 := by
  induction fs generalizing j with
  | nil => simp at hj
  | cons f rest ih =>
    cases j with
    | zero =>
      simp only [List.getD_cons_zero] at hhit ⊢
      rw [scanLabel]
      by_cases h1 : p ≤ f
      · simp [h1]
      · rw [if_neg h1, if_neg h1, if_pos (hhit.resolve_left h1)]
    | succ j' =>
      have h0 := hpre 0 (Nat.succ_pos j')
      simp only [List.getD_cons_zero] at h0
      rw [scanLabel, if_neg (not_le.mpr h0.2), if_neg (not_le.mpr h0.1)]
      simp only [List.getD_cons_succ] at hhit ⊢
      exact ih j' (by simpa using hj) (fun k hk => by simpa using hpre (k + 1) (by omega)) hhit

/-- `labelBar` characterized over the close series: for an eligible bar
`i`, the label is 1 iff some offset `j ∈ 1..FORWARD_WINDOW` reaches the
profit barrier with every earlier offset strictly between the
barriers. -/
lemma labelBar_eq_one_iff (closes : List ℚ) (i : ℕ)
    (h : i + FORWARD_WINDOW < closes.length) :
    labelBar closes i = 1 ↔ ∃ j, 1 ≤ j ∧ j ≤ FORWARD_WINDOW ∧
      closes.getD i 0 * (1 + PROFIT_TARGET) ≤ closes.getD (i + j) 0 ∧
      ∀ k, 1 ≤ k → k < j →
        closes.getD i 0 * (1 - STOP_LOSS) < closes.getD (i + k) 0 ∧
        closes.getD (i + k) 0 < closes.getD i 0 * (1 + PROFIT_TARGET) := by
  simp only [labelBar]
  rw [scanLabel_eq_one_iff, window_length closes i h]
  constructor
  · rintro ⟨j, hj, hpj, hk⟩
    rw [window_getD closes i j hj (by omega)] at hpj
    refine ⟨j + 1, by omega, by omega, by rw [show i + (j + 1) = i + 1 + j by omega]; exact hpj, ?_⟩
    intro k hk1 hkj
    have := hk (k - 1) (by omega)
    rw [window_getD closes i (k - 1) (by omega) (by omega),
      show i + 1 + (k - 1) = i + k by omega] at this
    exact this
  · rintro ⟨j, hj1, hjW, hpj, hk⟩
    refine ⟨j - 1, by omega, ?_, ?_⟩
    · rw [window_getD closes i (j - 1) (by omega) (by omega),
        show i + 1 + (j - 1) = i + j by omega]
      exact hpj
    · intro k hkj
      rw [window_getD closes i k (by omega) (by omega),
        show i + 1 + k = i + (k + 1) by omega]
      exact hk (k + 1) (by omega) (by omega)

/-- The geometric series has length `n`. -/
lemma geomCloses_length (c0 : ℚ) (n : ℕ) : (geomCloses c0 n).length = n := by
  simp [geomCloses]

/-- Entry `t` of the geometric series is `c0 * (101/100) ^ t`. -/
lemma geomCloses_getD (c0 : ℚ) (n t : ℕ) (ht : t < n) :
    (geomCloses c0 n).getD t 0 = c0 * (101 / 100) ^ t := by
  unfold geomCloses
  rw [List.getD_eq_getElem?_getD, List.getElem?_map, List.getElem?_range ht]
  rfl

/-- C9: for every eligible bar `i` with entry price `e = close[i]`, the
label is 1 iff some offset `j ∈ 1..FORWARD_WINDOW` has
`close[i+j] ≥ e * 1.02` while every earlier offset stays strictly
between `e * 0.99` and `e * 1.02`; otherwise the label is 0 (the scan
produces nothing but 0 and 1, covering the stop-barrier and
time-barrier cases). -/
theorem label_one_iff_profit_before_stop (closes : List ℚ) (i : ℕ)
    (h : i + FORWARD_WINDOW < closes.length) :
    (labelBar closes i = 1 ↔ ∃ j, 1 ≤ j ∧ j ≤ FORWARD_WINDOW ∧
      closes.getD i 0 * (1 + PROFIT_TARGET) ≤ closes.getD (i + j) 0 ∧
      ∀ k, 1 ≤ k → k < j →
        closes.getD i 0 * (1 - STOP_LOSS) < closes.getD (i + k) 0 ∧
        closes.getD (i + k) 0 < closes.getD i 0 * (1 + PROFIT_TARGET)) ∧
    (labelBar closes i = 0 ∨ labelBar closes i = 1) := by
  refine ⟨labelBar_eq_one_iff closes i h, ?_⟩
  simp only [labelBar]
  exact scanLabel_eq_zero_or_one _ _ _

unseal Rat.mul Rat.add Rat.sub Rat.inv Rat.ofScientific in
/-- C9 witness: on the series `cexC9` (entry 100, first future close
103) bar 0 is eligible, and the characterization applies. -/
theorem label_one_iff_profit_before_stop_witness :
    0 + FORWARD_WINDOW < cexC9.length ∧
    ((labelBar cexC9 0 = 1 ↔ ∃ j, 1 ≤ j ∧ j ≤ FORWARD_WINDOW ∧
      cexC9.getD 0 0 * (1 + PROFIT_TARGET) ≤ cexC9.getD (0 + j) 0 ∧
      ∀ k, 1 ≤ k → k < j →
        cexC9.getD 0 0 * (1 - STOP_LOSS) < cexC9.getD (0 + k) 0 ∧
        cexC9.getD (0 + k) 0 < cexC9.getD 0 0 * (1 + PROFIT_TARGET)) ∧
    (labelBar cexC9 0 = 0 ∨ labelBar cexC9 0 = 1)) :=
  ⟨by decide, label_one_iff_profit_before_stop cexC9 0 (by decide)⟩

/-- C7: on a strictly rising geometric series (`close[k] = c0 * 1.01^k`
with `c0 > 0`), every eligible bar is labeled 1: the first future close
sits strictly between the barriers and the second one breaches the
profit barrier, since `1.01^2 = 1.0201 ≥ 1.02`. -/
theorem rising_geometric_series_all_labels_one (c0 : ℚ) (hc0 : 0 < c0) (n i : ℕ)
    (h : i + FORWARD_WINDOW < n) :
    labelBar (geomCloses c0 n) i = 1 := by
  have hlen : i + FORWARD_WINDOW < (geomCloses c0 n).length := by
    rw [geomCloses_length]; exact h
  rw [labelBar_eq_one_iff _ _ hlen]
  have hW : (2 : ℕ) ≤ FORWARD_WINDOW := by norm_num [FORWARD_WINDOW]
  have hpow : (0 : ℚ) < (101 / 100) ^ i := by positivity
  refine ⟨2, by omega, hW, ?_, ?_⟩
  · rw [geomCloses_getD c0 n i (by omega), geomCloses_getD c0 n (i + 2) (by omega)]
    rw [pow_add]
    rw [show c0 * ((101 / 100) ^ i * (101 / 100) ^ 2) =
      c0 * (101 / 100) ^ i * (10201 / 10000) by ring]
    have : (1 + PROFIT_TARGET) ≤ (10201 / 10000 : ℚ) := by norm_num [PROFIT_TARGET]
    exact mul_le_mul_of_nonneg_left this (by positivity)
  · intro k hk1 hk2
    have hk : k = 1 := by omega
    subst hk
    rw [geomCloses_getD c0 n i (by omega), geomCloses_getD c0 n (i + 1) (by omega)]
    rw [pow_add, show c0 * ((101 / 100) ^ i * (101 / 100) ^ 1) =
      c0 * (101 / 100) ^ i * (101 / 100) by ring]
    have hbase : (0 : ℚ) < c0 * (101 / 100) ^ i := by positivity
    constructor
    · exact mul_lt_mul_of_pos_left (by norm_num [STOP_LOSS]) hbase
    · exact mul_lt_mul_of_pos_left (by norm_num [PROFIT_TARGET]) hbase

unseal Rat.mul Rat.add Rat.sub Rat.inv Rat.ofScientific in
/-- C7 witness: with `c0 = 100` and `n = 30`, bar 3 is eligible and is
labeled 1. -/
theorem rising_geometric_series_all_labels_one_witness :
    (0 : ℚ) < 100 ∧ 3 + FORWARD_WINDOW < 30 ∧
    labelBar (geomCloses 100 30) 3 = 1 :=
  ⟨by norm_num, by decide,
   rising_geometric_series_all_labels_one 100 (by norm_num) 30 3 (by decide)⟩

/-- C5: for an eligible bar `i`, if the offsets before `j` stay strictly
between the barriers and offset `j` touches a barrier, the label is
decided at `j` as `if profit condition then 1 else 0`: the profit
condition is evaluated first at each offset (so a simultaneous breach of
both conditions gives 1), and the scan stops at the first offset where
either condition holds — closes after `i + j` do not appear in the
result. -/
theorem profit_checked_before_loss_first_hit (closes : List ℚ) (i j : ℕ)
    (hi : i + FORWARD_WINDOW < closes.length) (hj1 : 1 ≤ j) (hjW : j ≤ FORWARD_WINDOW)
    (hearlier : ∀ k, 1 ≤ k → k < j →
      closes.getD i 0 * (1 - STOP_LOSS) < closes.getD (i + k) 0 ∧
      closes.getD (i + k) 0 < closes.getD i 0 * (1 + PROFIT_TARGET))
    (hhit : closes.getD i 0 * (1 + PROFIT_TARGET) ≤ closes.getD (i + j) 0 ∨
      closes.getD (i + j) 0 ≤ closes.getD i 0 * (1 - STOP_LOSS)) :
    labelBar closes i =
      if closes.getD i 0 * (1 + PROFIT_TARGET) ≤ closes.getD (i + j) 0 then 1 else 0 := by
  simp only [labelBar]
  have hwin : ((closes.drop (i + 1)).take FORWARD_WINDOW).getD (j - 1) 0 =
      closes.getD (i + j) 0 := by
    rw [window_getD closes i (j - 1) (by omega) (by omega),
      show i + 1 + (j - 1) = i + j by omega]
  rw [scanLabel_first _ _ _ (j - 1) (by rw [window_length closes i hi]; omega) ?pre ?hit, hwin]
  case pre =>
    intro k hk
    rw [window_getD closes i k (by omega) (by omega),
      show i + 1 + k = i + (k + 1) by omega]
    exact hearlier (k + 1) (by omega) (by omega)
  case hit => rw [hwin]; exact hhit

unseal Rat.mul Rat.add Rat.sub Rat.inv Rat.ofScientific in
/-- C5 witness: on `cexC5` the entry price -100 produces the inverted
barrier pair (-102, -99), and the future close -100 at offset 1
satisfies both the profit and the loss condition at once; the label is
1, showing the profit check comes first. -/
theorem profit_checked_before_loss_first_hit_witness :
    labelBar cexC5 0 = 1 ∧
    cexC5.getD 0 0 * (1 + PROFIT_TARGET) ≤ cexC5.getD (0 + 1) 0 ∧
    cexC5.getD (0 + 1) 0 ≤ cexC5.getD 0 0 * (1 - STOP_LOSS) :=
  ⟨by
    rw [profit_checked_before_loss_first_hit cexC5 0 1 (by decide) le_rfl (by decide)
      (fun k hk1 hk2 => absurd (hk1.trans_lt hk2) (lt_irrefl 1))
      (Or.inl (by decide))]
    decide, by decide, by decide⟩

/-- C6: whenever the first future close is 98.5 against entry price 100
(so the stop barrier 99 is hit at offset 1 while the profit barrier 102
is not), the label of bar 0 is 0 no matter what the rest of the window
holds — in particular the rise to 105 at offset 2 cannot flip it. -/
theorem stop_hit_at_first_offset_fixes_label_zero (rest : List ℚ)
    (h : rest.length = 19) :
    labelBar ([100, 98.5, 105, 90, 80, 70] ++ rest) 0 = 0 := by
  simp only [labelBar]
  have : (([(100 : ℚ), 98.5, 105, 90, 80, 70] ++ rest).drop (0 + 1)).take FORWARD_WINDOW =
      (98.5 : ℚ) :: ([(105 : ℚ), 90, 80, 70] ++ rest).take 23 := rfl
  rw [this, scanLabel]
  have hno : ¬ (([(100 : ℚ), 98.5, 105, 90, 80, 70] ++ rest).getD 0 0 *
      (1 + PROFIT_TARGET) ≤ 98.5) := by
    norm_num [PROFIT_TARGET]
  have hyes : (98.5 : ℚ) ≤ ([(100 : ℚ), 98.5, 105, 90, 80, 70] ++ rest).getD 0 0 *
      (1 - STOP_LOSS) := by
    norm_num [STOP_LOSS]
  rw [if_neg hno, if_pos hyes]

unseal Rat.mul Rat.add Rat.sub Rat.inv Rat.ofScientific in
/-- C6 witness: with 19 zeros filling the rest of the window, bar 0 of
the concrete series gets label 0. -/
theorem stop_hit_at_first_offset_fixes_label_zero_witness :
    (List.replicate 19 (0 : ℚ)).length = 19 ∧
    labelBar ([100, 98.5, 105, 90, 80, 70] ++ List.replicate 19 (0 : ℚ)) 0 = 0 :=
  ⟨by decide, stop_hit_at_first_offset_fixes_label_zero (List.replicate 19 0) (by decide)⟩

/-- C4 (amended): the code does not reject a non-positive entry price;
it computes the barrier pair from it and produces a label.  With a
negative entry price the profit barrier `entry * 1.02` is negative, so
any non-negative close at offset 1 immediately yields label 1. -/
theorem nonpositive_entry_yields_label_one (closes : List ℚ) (i : ℕ)
    (h : i + FORWARD_WINDOW < closes.length) (hneg : closes.getD i 0 < 0)
    (hnext : 0 ≤ closes.getD (i + 1) 0) :
    labelBar closes i = 1 := by
  simp only [labelBar]
  have hW : FORWARD_WINDOW = 24 := rfl
  have hwin : ((closes.drop (i + 1)).take FORWARD_WINDOW).getD 0 0 =
      closes.getD (i + 1) 0 := by
    rw [window_getD closes i 0 (by omega) (by omega)]
  have hp : closes.getD i 0 * (1 + PROFIT_TARGET) ≤ closes.getD (i + 1) 0 := by
    have : closes.getD i 0 * (1 + PROFIT_TARGET) < 0 :=
      mul_neg_of_neg_of_pos hneg (by norm_num [PROFIT_TARGET])
    linarith
  rw [scanLabel_first _ _ _ 0 (by rw [window_length closes i h]; omega)
    (fun k hk => absurd hk (Nat.not_lt_zero k)) (Or.inl (by rw [hwin]; exact hp)),
    hwin, if_pos hp]

unseal Rat.mul Rat.add Rat.sub Rat.inv Rat.ofScientific in
/-- C4 amended witness: on `cexC4` (entry -100, next close -99 … here we
use a variant with next close 0) bar 0 is eligible and labeled 1. -/
theorem nonpositive_entry_yields_label_one_witness :
    0 + FORWARD_WINDOW < ((-100 : ℚ) :: List.replicate 24 (0 : ℚ)).length ∧
    ((-100 : ℚ) :: List.replicate 24 (0 : ℚ)).getD 0 0 < 0 ∧
    (0 : ℚ) ≤ ((-100 : ℚ) :: List.replicate 24 (0 : ℚ)).getD (0 + 1) 0 ∧
    labelBar ((-100 : ℚ) :: List.replicate 24 (0 : ℚ)) 0 = 1 :=
  ⟨by decide, by decide, by decide,
   nonpositive_entry_yields_label_one ((-100 : ℚ) :: List.replicate 24 (0 : ℚ)) 0
     (by decide) (by decide) (by decide)⟩

/-- C2 (amended): for an eligible bar `i` the label is a function of
`close[i .. i+FORWARD_WINDOW]` — the window together with the entry
close itself: two series that agree there get the same label, however
they differ on `close[0 .. i-1]`. -/
theorem label_function_of_window_from_entry (c1 c2 : List ℚ) (i : ℕ)
    (h1 : i + FORWARD_WINDOW < c1.length) (h2 : i + FORWARD_WINDOW < c2.length)
    (hagree : (c1.drop i).take (FORWARD_WINDOW + 1) = (c2.drop i).take (FORWARD_WINDOW + 1)) :
    labelBar c1 i = labelBar c2 i := by
  have hi1 : i < c1.length := by omega
  have hi2 : i < c2.length := by omega
  rw [List.drop_eq_getElem_cons hi1, List.drop_eq_getElem_cons hi2,
    List.take_succ_cons, List.take_succ_cons] at hagree
  have hhead : c1[i] = c2[i] := (List.cons.injEq _ _ _ _).mp hagree |>.1
  have htail : (c1.drop (i + 1)).take FORWARD_WINDOW =
      (c2.drop (i + 1)).take FORWARD_WINDOW := (List.cons.injEq _ _ _ _).mp hagree |>.2
  simp only [labelBar]
  rw [List.getD_eq_getElem c1 0 hi1, List.getD_eq_getElem c2 0 hi2, hhead, htail]

/-- C2 amended witness: two series sharing the 25-bar tail `tailC2` but
differing at index 0 give bar 1 the same label. -/
theorem label_function_of_window_from_entry_witness :
    1 + FORWARD_WINDOW < ((1 : ℚ) :: tailC2).length ∧
    1 + FORWARD_WINDOW < ((2 : ℚ) :: tailC2).length ∧
    ((((1 : ℚ) :: tailC2).drop 1).take (FORWARD_WINDOW + 1) =
      (((2 : ℚ) :: tailC2).drop 1).take (FORWARD_WINDOW + 1)) ∧
    labelBar ((1 : ℚ) :: tailC2) 1 = labelBar ((2 : ℚ) :: tailC2) 1 :=
  ⟨by decide, by decide, by decide,
   label_function_of_window_from_entry ((1 : ℚ) :: tailC2) ((2 : ℚ) :: tailC2) 1
     (by decide) (by decide) (by decide)⟩

/-- C8: the lag computation is exactly a backward shift: the output has
the source's length, its value at `t` is the source value at `t - L`
when `L ≤ t` and undefined otherwise, and it is defined at `t` exactly
when `L ≤ t` and the source is defined at `t - L`. -/
theorem lag_column_is_shifted_source (xs : List (Option ℚ)) (L t : ℕ)
    (ht : t < xs.length) :
    (shiftCol L xs).length = xs.length ∧
    (shiftCol L xs).getD t none = (if L ≤ t then xs.getD (t - L) none else none) ∧
    (((shiftCol L xs).getD t none).isSome ↔ L ≤ t ∧ (xs.getD (t - L) none).isSome) := by
  have hval : (shiftCol L xs).getD t none =
      (if L ≤ t then xs.getD (t - L) none else none) := by
    unfold shiftCol
    rw [List.getD_eq_getElem?_getD, List.getElem?_map, List.getElem?_range ht]
    rfl
  refine ⟨by simp [shiftCol], hval, ?_⟩
  rw [hval]
  by_cases hL : L ≤ t
  · simp [hL]
  · simp [hL]

/-- C8 witness: source `[none, some 1, some 2]`, lag 1, row 2: the value
is the source value at row 1. -/
theorem lag_column_is_shifted_source_witness :
    2 < ([none, some (1 : ℚ), some 2] : List (Option ℚ)).length ∧
    ((shiftCol 1 [none, some (1 : ℚ), some 2]).length =
      ([none, some (1 : ℚ), some 2] : List (Option ℚ)).length ∧
    (shiftCol 1 [none, some (1 : ℚ), some 2]).getD 2 none =
      (if 1 ≤ 2 then ([none, some (1 : ℚ), some 2] : List (Option ℚ)).getD (2 - 1) none
       else none) ∧
    (((shiftCol 1 [none, some (1 : ℚ), some 2]).getD 2 none).isSome ↔ 1 ≤ 2 ∧
      (([none, some (1 : ℚ), some 2] : List (Option ℚ)).getD (2 - 1) none).isSome)) :=
  ⟨by decide, lag_column_is_shifted_source [none, some 1, some 2] 1 2 (by decide)⟩

/-- Column lookup ignores a rewrite of the column labeled `n` when the
label looked up differs from `n`. -/
lemma lookupCol_map_ite (cols : List (String × List (Option ℚ))) (n m : String)
    (G : String × List (Option ℚ) → List (Option ℚ)) (h : m ≠ n) :
    lookupCol (cols.map (fun c => if c.1 = n then (c.1, G c) else c)) m =
      lookupCol cols m := by
  induction cols with
  | nil => rfl
  | cons c rest ih =>
    simp only [List.map_cons]
    by_cases hc : c.1 = n
    · rw [if_pos hc]
      have hm : ¬ ((c.1, G c).1 = m) := by simp only []; rw [hc]; exact fun e => h e.symm
      rw [lookupCol, if_neg hm, lookupCol, if_neg (by rw [hc]; exact fun e => h e.symm), ih]
    · rw [if_neg hc]
      by_cases hm : c.1 = m
      · rw [lookupCol, if_pos hm, lookupCol, if_pos hm]
      · rw [lookupCol, if_neg hm, lookupCol, if_neg hm, ih]

/-- Column lookup ignores a fresh column appended under a different
label. -/
lemma lookupCol_append_single_ne (cols : List (String × List (Option ℚ)))
    (n m : String) (v : List (Option ℚ)) (h : m ≠ n) :
    lookupCol (cols ++ [(n, v)]) m = lookupCol cols m := by
  induction cols with
  | nil => simp [lookupCol, Ne.symm h]
  | cons c rest ih =>
    by_cases hm : c.1 = m
    · rw [List.cons_append, lookupCol, if_pos hm, lookupCol, if_pos hm]
    · rw [List.cons_append, lookupCol, if_neg hm, lookupCol, if_neg hm, ih]

/-- `df[n] = v` leaves every column labeled `m ≠ n` unchanged. -/
lemma getCol_setCol_ne (f : Frame) (n m : String) (v : List (Option ℚ)) (h : m ≠ n) :
    (f.setCol n v).getCol m = f.getCol m := by
  unfold Frame.setCol Frame.getCol
  split
  · exact lookupCol_map_ite f.cols n m (fun _ => v) h
  · exact lookupCol_append_single_ne f.cols n m v h

/-- `df.at[i, n] = v` leaves every column labeled `m ≠ n` unchanged. -/
lemma getCol_setCell_ne (f : Frame) (n m : String) (i : ℕ) (v : ℚ) (h : m ≠ n) :
    (f.setCell n i v).getCol m = f.getCol m :=
  lookupCol_map_ite f.cols n m (fun c => c.2.set i (some v)) h

/-- Column assignment does not touch the row index. -/
lemma index_setCol (f : Frame) (n : String) (v : List (Option ℚ)) :
    (f.setCol n v).index = f.index := by
  unfold Frame.setCol
  split <;> rfl

/-- Cell assignment does not touch the row index. -/
lemma index_setCell (f : Frame) (n : String) (i : ℕ) (v : ℚ) :
    (f.setCell n i v).index = f.index := rfl

/-- A fold whose every step preserves a column preserves it overall. -/
lemma foldl_getCol_preserved (step : Frame → ℕ → Frame) (m : String)
    (hstep : ∀ a i, (step a i).getCol m = a.getCol m) :
    ∀ (l : List ℕ) (acc : Frame), (l.foldl step acc).getCol m = acc.getCol m := by
  intro l
  induction l with
  | nil => intro acc; rfl
  | cons x xs ih => intro acc; rw [List.foldl_cons, ih (step acc x), hstep]

/-- A fold whose every step preserves the index preserves it overall. -/
lemma foldl_index_preserved (step : Frame → ℕ → Frame)
    (hstep : ∀ a i, (step a i).index = a.index) :
    ∀ (l : List ℕ) (acc : Frame), (l.foldl step acc).index = acc.index := by
  intro l
  induction l with
  | nil => intro acc; rfl
  | cons x xs ih => intro acc; rw [List.foldl_cons, ih (step acc x), hstep]

/-- C10: the labeling step writes the `target` column only — every
other column, and the row index, are exactly what they were before
labeling. -/
theorem labeling_touches_only_target_column (df : Frame) (name : String)
    (h : name ≠ "target") :
    (labelStep df).getCol name = df.getCol name ∧ (labelStep df).index = df.index := by
  simp only [labelStep]
  constructor
  · rw [foldl_getCol_preserved _ name ?hs, getCol_setCol_ne df "target" name _ h]
    case hs =>
      intro a i
      dsimp only
      split
      · exact getCol_setCell_ne a "target" name i 1 h
      · rfl
  · rw [foldl_index_preserved _ ?hi, index_setCol]
    case hi =>
      intro a i
      dsimp only
      split
      · exact index_setCell a "target" i 1
      · rfl

/-- C10 witness: on the two-row frame `wC10`, the labeling step leaves
the `Close` column and the index unchanged. -/
theorem labeling_touches_only_target_column_witness :
    ("Close" : String) ≠ "target" ∧
    (labelStep wC10).getCol "Close" = wC10.getCol "Close" ∧
    (labelStep wC10).index = wC10.index :=
  ⟨by decide, (labeling_touches_only_target_column wC10 "Close" (by decide)).1,
   (labeling_touches_only_target_column wC10 "Close" (by decide)).2⟩
